import Mathlib

/-!
Shallow embedding of the Monkey-style Pratt parser (src/parser.rs, src/ast.rs)
and the object model (src/object.rs).

The lexer is modelled as the list of tokens it will produce, consumed one at a
time (`Lexer::next_token` becomes `List.head?`/`List.tail`).  All parser
methods mutate `&mut self` in Rust; here every function threads the `Parser`
state explicitly and returns it together with the `Result`.  The two
skip-to-semicolon `loop`s in `parse_let_statement` / `parse_return_statement`
and the recursion of `parse_expression` are given a fuel parameter; a result
of `none` means the fuel ran out, i.e. the corresponding Rust computation has
not terminated within that many steps.
-/

/-- Modelled from the spec: the token kinds of `src/token.rs` (absent from the
sources).  Spec §6 lists the kinds the parser must recognize: identifier
(carries a name string), integer literal (carries a value), boolean keywords,
operators `+ - ! * / == != < >`, grouping delimiters `( )`, the assignment
marker, the statement separator, `let`, `return`.  The variant names are the
ones `src/parser.rs` and `src/ast.rs` pattern-match on. -/
inductive Token where
  | Ident (value : String)
  | Int (value : Int)
  | Bang
  | Minus
  | Plus
  | Asterisk
  | Slash
  | Lt
  | Gt
  | Eq
  | NotEq
  | True
  | False
  | Lparen
  | Rparen
  | Assign
  | Semicolon
  | Let
  | Return
  deriving DecidableEq, Repr

/-- `ast.rs` `Operator`: closed enumeration of operator tags. -/
inductive Operator where
  | Minus
  | Plus
  | Bang
  | Asterisk
  | Slash
  | Eq
  | NotEq
  | Lt
  | Gt
  | Lparen
  deriving DecidableEq, Repr

/-- `ast.rs` `impl TryFrom<&Token> for Operator`. -/
def Token.tryIntoOperator : Token → Except String Operator
  | Token.Plus => Except.ok Operator.Plus
  | Token.Minus => Except.ok Operator.Minus
  | Token.Bang => Except.ok Operator.Bang
  | Token.Asterisk => Except.ok Operator.Asterisk
  | Token.Slash => Except.ok Operator.Slash
  | Token.Lt => Except.ok Operator.Lt
  | Token.Gt => Except.ok Operator.Gt
  | Token.Eq => Except.ok Operator.Eq
  | Token.NotEq => Except.ok Operator.NotEq
  | Token.Lparen => Except.ok Operator.Lparen
  | _ => Except.error "Token cannot be converted into operator"

/-- `ast.rs` `Identifier`. -/
structure Identifier where
  value : String
  deriving DecidableEq, Repr

/-- The `Expression` union as `src/parser.rs` constructs it
(variants `Identifier`, `IntegerLiteral`, `BooleanLiteral`,
`PrefixExpression`, `InfixExpression`; the `IntegerLiteral` /
`BooleanLiteral` wrapper structs of `ast.rs` are inlined as the
constructor's `value` field, and the `Box`es of `PrefixExpression` /
`InfixExpression` become plain recursive occurrences). -/
inductive Expression where
  | Identifier (i : Identifier)
  | IntegerLiteral (value : Int)
  | BooleanLiteral (value : Bool)
  | PrefixExpression (operator : Operator) (right : Expression)
  | InfixExpression (operator : Operator) (left : Expression) (right : Expression)
  deriving DecidableEq, Repr

/-- `ast.rs` `Statement` (the `Block` variant is never produced by any code in
`src/parser.rs`; its payload is a list of statements). -/
inductive Statement where
  | Let (name : Identifier) (value : Expression)
  | Return (value : Expression)
  | Expression (expression : Expression)
  | Block (statements : List Statement)
  deriving Repr

/-- `ast.rs` `Program` (keeping the source's field spelling `statments`). -/
structure Program where
  statments : List Statement
  errors : List String
  deriving Repr

/-- `Program::new`. -/
def Program.new : Program := { statments := [], errors := [] }

/-- `parser.rs` `OperatorPrecedence` discriminants 0..6. -/
inductive OperatorPrecedence where
  | Lowest
  | Equals
  | LessGreater
  | Sum
  | Product
  | Prefix
  | Call
  deriving DecidableEq, Repr

/-- The numeric discriminants of `OperatorPrecedence` (`Lowest = 0` …
`Call = 6`); `#[derive(PartialOrd, Ord)]` compares by these. -/
def OperatorPrecedence.toNat : OperatorPrecedence → Nat
  | OperatorPrecedence.Lowest => 0
  | OperatorPrecedence.Equals => 1
  | OperatorPrecedence.LessGreater => 2
  | OperatorPrecedence.Sum => 3
  | OperatorPrecedence.Product => 4
  | OperatorPrecedence.Prefix => 5
  | OperatorPrecedence.Call => 6

/-- `parser.rs` `impl From<&Operator> for OperatorPrecedence` (note the
wildcard arm sending every remaining operator to `Lowest`). -/
def precedenceOfOp : Operator → OperatorPrecedence
  | Operator.Minus => OperatorPrecedence.Sum
  | Operator.Plus => OperatorPrecedence.Sum
  | Operator.Asterisk => OperatorPrecedence.Product
  | Operator.Slash => OperatorPrecedence.Product
  | Operator.Eq => OperatorPrecedence.Equals
  | Operator.NotEq => OperatorPrecedence.Equals
  | Operator.Lt => OperatorPrecedence.LessGreater
  | Operator.Gt => OperatorPrecedence.LessGreater
  | _ => OperatorPrecedence.Lowest

/-- The `#[derive(Debug)]` rendering of a `Token`, as used by the `{:?}`
format specifier in the parser's error messages. -/
def tokenDebug : Token → String
  | Token.Ident s => "Ident(\"" ++ s ++ "\")"
  | Token.Int n => "Int(" ++ toString n ++ ")"
  | Token.Bang => "Bang"
  | Token.Minus => "Minus"
  | Token.Plus => "Plus"
  | Token.Asterisk => "Asterisk"
  | Token.Slash => "Slash"
  | Token.Lt => "Lt"
  | Token.Gt => "Gt"
  | Token.Eq => "Eq"
  | Token.NotEq => "NotEq"
  | Token.True => "True"
  | Token.False => "False"
  | Token.Lparen => "Lparen"
  | Token.Rparen => "Rparen"
  | Token.Assign => "Assign"
  | Token.Semicolon => "Semicolon"
  | Token.Let => "Let"
  | Token.Return => "Return"

/-- The `#[derive(Debug)]` rendering of an `Option<Token>` (`{:?}`). -/
def optionTokenDebug : Option Token → String
  | none => "None"
  | some t => "Some(" ++ tokenDebug t ++ ")"

/-- `parser.rs` `Parser`: the two-token lookahead window plus the remaining
token stream of the lexer. -/
structure Parser where
  current_token : Option Token
  peek_token : Option Token
  lexer : List Token
  deriving DecidableEq, Repr

/-- `Parser::next_token`: shift peek into current, pull one token from the
lexer into peek. -/
def Parser.next_token (p : Parser) : Parser :=
  { current_token := p.peek_token, peek_token := p.lexer.head?, lexer := p.lexer.tail }

/-- `Parser::new`: start with both slots empty and prime the window with two
pulls. -/
def Parser.new (tokens : List Token) : Parser :=
  (Parser.next_token (Parser.next_token
    { current_token := none, peek_token := none, lexer := tokens }))

/-- The result of a parse step: the Rust `Result` value together with the
parser state left behind by the `&mut self` mutations (also on the error
path, since `?` propagates the error but keeps the mutated state). -/
abbrev ParseResult (α : Type) := Except String α × Parser

mutual

/-- `Token::prefix_parse` (`parser.rs` lines 20-55), on the cloned current
token.  The wildcard arm bails with `"test broken exp {:?}"`. -/
def Token.prefix_parse (fuel : Nat) (t : Token) (p : Parser) :
    Option (ParseResult Expression) :=
  match fuel with
  | 0 => none
  | fuel + 1 =>
    match t with
    | Token.Ident ident => some (Except.ok (Expression.Identifier { value := ident }), p)
    | Token.Bang | Token.Minus =>
      match Parser.parse_expression fuel OperatorPrecedence.Prefix p.next_token with
      | none => none
      | some (Except.error e, p1) => some (Except.error e, p1)
      | some (Except.ok right, p1) =>
        match t.tryIntoOperator with
        | Except.error e => some (Except.error e, p1)
        | Except.ok op => some (Except.ok (Expression.PrefixExpression op right), p1)
    | Token.Int value => some (Except.ok (Expression.IntegerLiteral value), p)
    | Token.True => some (Except.ok (Expression.BooleanLiteral true), p)
    | Token.False => some (Except.ok (Expression.BooleanLiteral false), p)
    | Token.Lparen =>
      match Parser.parse_expression fuel OperatorPrecedence.Lowest p.next_token with
      | none => none
      | some (exp, p1) =>
        if p1.peek_token = some Token.Rparen then some (exp, p1.next_token)
        else some (Except.error "right parentesis not found after left", p1)
    | _ => some (Except.error ("test broken exp " ++ tokenDebug t), p)

/-- `Token::infix_parse` (`parser.rs` lines 57-81), on the cloned peek token:
for the eight binary operator tokens, advance twice, parse the right operand
at the operator's own precedence and build an `InfixExpression`; any other
token returns `left` unchanged. -/
def Token.infix_parse (fuel : Nat) (t : Token) (left : Expression) (p : Parser) :
    Option (ParseResult Expression) :=
  match fuel with
  | 0 => none
  | fuel + 1 =>
    match t with
    | Token.Plus | Token.Minus | Token.Asterisk | Token.Slash
    | Token.Lt | Token.Gt | Token.Eq | Token.NotEq =>
      match t.tryIntoOperator with
      | Except.error e => some (Except.error e, p)
      | Except.ok op =>
        let precedence := precedenceOfOp op
        match Parser.parse_expression fuel precedence p.next_token.next_token with
        | none => none
        | some (Except.error e, p1) => some (Except.error e, p1)
        | some (Except.ok right, p1) =>
          some (Except.ok (Expression.InfixExpression op left right), p1)
    | _ => some (Except.ok left, p)

/-- `Parser::parse_expression` (`parser.rs` lines 177-209): prefix-parse the
current token, then run the precedence-climbing loop; with no current token,
bail with `"cannot parse expression"`. -/
def Parser.parse_expression (fuel : Nat) (precedence : OperatorPrecedence) (p : Parser) :
    Option (ParseResult Expression) :=
  match fuel with
  | 0 => none
  | fuel + 1 =>
    match p.current_token with
    | some token =>
      match Token.prefix_parse fuel token p with
      | none => none
      | some (Except.error e, p1) => some (Except.error e, p1)
      | some (Except.ok left, p1) =>
        Parser.parse_expression_loop fuel precedence left p1
    | none => some (Except.error "cannot parse expression", p)

/-- The `loop` inside `Parser::parse_expression` (`parser.rs` lines 182-205):
break on a semicolon in current position, on an exhausted peek slot, on a
peek token with no operator tag, or when the peek operator's precedence does
not exceed `precedence`; otherwise fold `left` through the peek token's
infix rule and continue. -/
def Parser.parse_expression_loop (fuel : Nat) (precedence : OperatorPrecedence)
    (left : Expression) (p : Parser) : Option (ParseResult Expression) :=
  match fuel with
  | 0 => none
  | fuel + 1 =>
    if p.current_token = some Token.Semicolon then some (Except.ok left, p)
    else
      match p.peek_token with
      | some peak_token =>
        match peak_token.tryIntoOperator with
        | Except.error _ => some (Except.ok left, p)
        | Except.ok op =>
          let peak_precedence := precedenceOfOp op
          if peak_precedence.toNat ≤ precedence.toNat then some (Except.ok left, p)
          else
            match Token.infix_parse fuel peak_token left p with
            | none => none
            | some (Except.error e, p1) => some (Except.error e, p1)
            | some (Except.ok left1, p1) =>
              Parser.parse_expression_loop fuel precedence left1 p1
      | none => some (Except.ok left, p)

end

/-- The `loop { self.next_token(); if current == Semicolon break }` shared by
`parse_let_statement` and `parse_return_statement` (`parser.rs` lines
143-148 and 164-169).  `none` means the loop has not found a semicolon
within `fuel` advances — with an exhausted stream the Rust loop never
breaks, i.e. it runs forever. -/
def skipToSemicolon (fuel : Nat) (p : Parser) : Option Parser :=
  match fuel with
  | 0 => none
  | fuel + 1 =>
    let p1 := p.next_token
    if p1.current_token = some Token.Semicolon then some p1
    else skipToSemicolon fuel p1

/-- `Parser::parse_let_statement` (`parser.rs` lines 128-160): require an
identifier in peek position, advance and capture its name, require an
assignment marker in peek position, advance, skip to the semicolon, and
return a `Let` statement whose value is the placeholder identifier
`"todo"`; both requirement failures fall through to the single `bail!`
that formats the (current) peek slot. -/
def Parser.parse_let_statement (fuel : Nat) (p : Parser) :
    Option (ParseResult Statement) :=
  match p.peek_token with
  | some (Token.Ident _) =>
    let p1 := p.next_token
    -- after the advance, `current_token` is the identifier just validated
    -- through peek (the `unreachable!` arm of the Rust `match` cannot run)
    match p1.current_token with
    | some (Token.Ident value) =>
      let name : Identifier := { value := value }
      match p1.peek_token with
      | some Token.Assign =>
        let p2 := p1.next_token
        match skipToSemicolon fuel p2 with
        | none => none
        | some p3 =>
          some (Except.ok (Statement.Let name
            (Expression.Identifier { value := "todo" })), p3)
      | _ =>
        some (Except.error
          ("expected token to be ident got: " ++ optionTokenDebug p1.peek_token), p1)
    | _ =>
      some (Except.error
        ("expected token to be ident got: " ++ optionTokenDebug p1.peek_token), p1)
  | _ =>
    some (Except.error
      ("expected token to be ident got: " ++ optionTokenDebug p.peek_token), p)

/-- `Parser::parse_return_statement` (`parser.rs` lines 162-175): skip to the
semicolon and return a `Return` statement with the placeholder identifier
`"todo"` as its value. -/
def Parser.parse_return_statement (fuel : Nat) (p : Parser) :
    Option (ParseResult Statement) :=
  match skipToSemicolon fuel p with
  | none => none
  | some p1 =>
    some (Except.ok (Statement.Return (Expression.Identifier { value := "todo" })), p1)

/-- `Parser::parse_expression_statement` (`parser.rs` lines 211-219): parse
one expression at the lowest precedence; if the peek token is a semicolon,
consume it. -/
def Parser.parse_expression_statement (fuel : Nat) (p : Parser) :
    Option (ParseResult Statement) :=
  match Parser.parse_expression fuel OperatorPrecedence.Lowest p with
  | none => none
  | some (Except.error e, p1) => some (Except.error e, p1)
  | some (Except.ok expression, p1) =>
    let p2 := if p1.peek_token = some Token.Semicolon then p1.next_token else p1
    some (Except.ok (Statement.Expression expression), p2)

/-- `Parser::parse_statement` (`parser.rs` lines 221-227): dispatch on the
current token's kind. -/
def Parser.parse_statement (fuel : Nat) (p : Parser) :
    Option (ParseResult Statement) :=
  match p.current_token with
  | some Token.Let => Parser.parse_let_statement fuel p
  | some Token.Return => Parser.parse_return_statement fuel p
  | _ => Parser.parse_expression_statement fuel p

/-- The `while current_token.is_some()` loop of `Parser::parse_program`
(`parser.rs` lines 232-238), accumulating into `prog`: a successful
statement parse is pushed onto `statments`, a failed one pushes its message
onto `errors`, and the parser unconditionally advances once per iteration. -/
def Parser.parse_program_loop (fuel : Nat) (p : Parser) (prog : Program) :
    Option Program :=
  match fuel with
  | 0 => none
  | fuel + 1 =>
    if p.current_token.isSome then
      match Parser.parse_statement fuel p with
      | none => none
      | some (res, p1) =>
        let prog1 :=
          match res with
          | Except.ok stmt => { prog with statments := prog.statments ++ [stmt] }
          | Except.error err => { prog with errors := prog.errors ++ [err] }
        Parser.parse_program_loop fuel p1.next_token prog1
    else some prog

/-- `Parser::parse_program` (`parser.rs` lines 229-240): run the loop from a
fresh `Program` and wrap the result in `Ok` — the only exit point. -/
def Parser.parse_program (fuel : Nat) (p : Parser) : Option (Except String Program) :=
  match Parser.parse_program_loop fuel p Program.new with
  | none => none
  | some prog => some (Except.ok prog)

/-- Counts the statement-parse attempts (iterations of the
`parse_program` loop) a terminating run performs; it mirrors the control
flow of `Parser.parse_program_loop` step for step. -/
def Parser.parseAttempts (fuel : Nat) (p : Parser) : Option Nat :=
  match fuel with
  | 0 => none
  | fuel + 1 =>
    if p.current_token.isSome then
      match Parser.parse_statement fuel p with
      | none => none
      | some (_, p1) => (Parser.parseAttempts fuel p1.next_token).map (· + 1)
    else some 0

/-- `object.rs` `Object`: the value model's closed set. -/
inductive Object where
  | Integer (n : Int)
  | Boolean (b : Bool)
  | ReturnValue (obj : Object)
  | Null
  deriving DecidableEq, Repr

/-- `Object::is_thruthy` (`object.rs` lines 12-19). -/
def Object.is_thruthy : Object → Bool
  | Object.Integer _ => true
  | Object.Boolean b => b
  | Object.Null => false
  | Object.ReturnValue obj => obj.is_thruthy

/-- A parser state none of whose pending tokens (current, peek, or remaining
stream) is a semicolon: from such a state the skip-to-semicolon loop can
never break. -/
def noSemicolon (p : Parser) : Prop :=
  p.current_token ≠ some Token.Semicolon ∧
  p.peek_token ≠ some Token.Semicolon ∧
  Token.Semicolon ∉ p.lexer

/-- The tokens that own a `prefix_parse` arm in `parser.rs` lines 20-52;
every other token kind falls to the wildcard `bail!`. -/
def hasPrefixRule : Token → Bool
  | Token.Ident _ => true
  | Token.Bang => true
  | Token.Minus => true
  | Token.Int _ => true
  | Token.True => true
  | Token.False => true
  | Token.Lparen => true
  | _ => false

theorem noSemicolon_next {p : Parser} (h : noSemicolon p) : noSemicolon p.next_token := by
  obtain ⟨_, hpk, hlex⟩ := h
  cases hl : p.lexer with
  | nil =>
    refine ⟨hpk, ?_, ?_⟩ <;> simp [Parser.next_token, hl]
  | cons a as =>
    rw [hl] at hlex
    refine ⟨hpk, ?_, ?_⟩
    · simp only [Parser.next_token, hl, List.head?_cons, ne_eq, Option.some.injEq]
      intro hc
      exact hlex (hc ▸ List.mem_cons_self a as)
    · simp only [Parser.next_token, hl, List.tail_cons]
      intro hc
      exact hlex (List.mem_cons_of_mem a hc)

theorem skipToSemicolon_eq_none (fuel : Nat) (p : Parser) (h : noSemicolon p) :
    skipToSemicolon fuel p = none := by
  induction fuel generalizing p with
  | zero => rfl
  | succ n ih =>
    have h1 := noSemicolon_next h
    simp only [skipToSemicolon, if_neg h1.1]
    exact ih _ h1

/-- Claim C1: the claim says `parse_program` terminates on every finite token
stream, in particular on `let x = 5` with no statement separator.  It does
not: on the token stream of `let x = 5` the skip-to-semicolon loop inside
`parse_let_statement` never finds a semicolon, so no amount of fuel makes
`parse_program` return — the Rust loop runs forever. -/
theorem parse_program_diverges_on_unterminated_let :
    ∀ fuel, Parser.parse_program fuel
      (Parser.new [Token.Let, Token.Ident "x", Token.Assign, Token.Int 5]) = none := by
  intro fuel
  cases fuel with
  | zero => rfl
  | succ n =>
    have hskip : skipToSemicolon n
        { current_token := some Token.Assign,
          peek_token := some (Token.Int 5), lexer := [] } = none :=
      skipToSemicolon_eq_none n _ ⟨by simp, by simp, by simp⟩
    simp [Parser.parse_program, Parser.parse_program_loop, Parser.new,
      Parser.next_token, Parser.parse_statement, Parser.parse_let_statement, hskip]

/-- Claim C2: the claim says `parse_let_statement` parses the bound value as a full
expression, so `let x = 1 + 2;` should bind `x` to `Infix(+, 1, 2)`.  The
code instead skips to the semicolon and substitutes the placeholder
identifier `"todo"`: on the token stream of `let x = 1 + 2;` the resulting
`Let` statement's value is `Identifier("todo")`, which is not the claimed
infix node. -/
theorem parse_let_value_is_todo_placeholder :
    Parser.parse_program 20 (Parser.new [Token.Let, Token.Ident "x", Token.Assign,
        Token.Int 1, Token.Plus, Token.Int 2, Token.Semicolon])
      = some (Except.ok
          { statments := [Statement.Let { value := "x" }
              (Expression.Identifier { value := "todo" })],
            errors := [] }) ∧
    Expression.Identifier { value := "todo" } ≠
      Expression.InfixExpression Operator.Plus
        (Expression.IntegerLiteral 1) (Expression.IntegerLiteral 2) :=
  ⟨rfl, by decide⟩

/-- Claim C3: whenever `parse_program` terminates it returns `Ok`: the sole exit
point wraps the accumulated `Program` in `Ok`, every per-statement failure
having been converted to an error string inside it. -/
theorem parse_program_never_fails (fuel : Nat) (p : Parser) (r : Except String Program)
    (h : Parser.parse_program fuel p = some r) : ∃ prog, r = Except.ok prog := by
  unfold Parser.parse_program at h
  cases hl : Parser.parse_program_loop fuel p Program.new with
  | none => rw [hl] at h; exact absurd h (by simp)
  | some prog =>
    rw [hl] at h
    exact ⟨prog, (Option.some.injEq _ _ ▸ h).symm⟩

/-- Witness for C3: a run containing a failing `let` statement still returns
`Ok`, with the failure captured in the error list. -/
theorem parse_program_never_fails_witness :
    ∃ prog, (Except.ok
        { statments := [Statement.Expression (Expression.IntegerLiteral 5)],
          errors := ["expected token to be ident got: Some(Int(5))"] }
      : Except String Program) = Except.ok prog :=
  parse_program_never_fails 20
    (Parser.new [Token.Let, Token.Int 5, Token.Semicolon]) _ rfl

/-- Claim C4: parsing the token stream of `a + b * c` as a single expression
statement yields `Infix(+, a, Infix(*, b, c))` — multiplication binds
tighter than addition. -/
theorem precedence_a_plus_b_times_c :
    Parser.parse_program 32 (Parser.new [Token.Ident "a", Token.Plus,
        Token.Ident "b", Token.Asterisk, Token.Ident "c"])
      = some (Except.ok
          { statments := [Statement.Expression
              (Expression.InfixExpression Operator.Plus
                (Expression.Identifier { value := "a" })
                (Expression.InfixExpression Operator.Asterisk
                  (Expression.Identifier { value := "b" })
                  (Expression.Identifier { value := "c" })))],
            errors := [] }) := rfl

/-- Claim C5: parsing the token stream of `a - b - c` as a single expression
statement yields `Infix(-, Infix(-, a, b), c)` — equal-precedence infix
operators associate to the left, because the climbing loop only continues
when the peek operator's precedence strictly exceeds the current minimum. -/
theorem left_assoc_a_minus_b_minus_c :
    Parser.parse_program 32 (Parser.new [Token.Ident "a", Token.Minus,
        Token.Ident "b", Token.Minus, Token.Ident "c"])
      = some (Except.ok
          { statments := [Statement.Expression
              (Expression.InfixExpression Operator.Minus
                (Expression.InfixExpression Operator.Minus
                  (Expression.Identifier { value := "a" })
                  (Expression.Identifier { value := "b" }))
                (Expression.Identifier { value := "c" }))],
            errors := [] }) := rfl

/-- Claim C6 counterexample: the claim maps the `Lparen` operator to the `Call`
precedence level, but the conversion's wildcard arm sends it to `Lowest`. -/
theorem lparen_precedence_not_call :
    precedenceOfOp Operator.Lparen = OperatorPrecedence.Lowest ∧
    OperatorPrecedence.Lowest ≠ OperatorPrecedence.Call := by decide

/-- Claim C6 amended: `Eq`,`NotEq` map to `Equals`; `Lt`,`Gt` to `LessGreater`;
`Plus`,`Minus` to `Sum`; `Asterisk`,`Slash` to `Product`; every remaining
operator — `Lparen` and `Bang` — falls to the wildcard arm and maps to
`Lowest`; and the seven levels are strictly ordered
`Lowest < Equals < LessGreater < Sum < Product < Prefix < Call` by their
discriminants. -/
theorem operator_precedence_mapping :
    precedenceOfOp Operator.Eq = OperatorPrecedence.Equals ∧
    precedenceOfOp Operator.NotEq = OperatorPrecedence.Equals ∧
    precedenceOfOp Operator.Lt = OperatorPrecedence.LessGreater ∧
    precedenceOfOp Operator.Gt = OperatorPrecedence.LessGreater ∧
    precedenceOfOp Operator.Plus = OperatorPrecedence.Sum ∧
    precedenceOfOp Operator.Minus = OperatorPrecedence.Sum ∧
    precedenceOfOp Operator.Asterisk = OperatorPrecedence.Product ∧
    precedenceOfOp Operator.Slash = OperatorPrecedence.Product ∧
    precedenceOfOp Operator.Lparen = OperatorPrecedence.Lowest ∧
    precedenceOfOp Operator.Bang = OperatorPrecedence.Lowest ∧
    OperatorPrecedence.Lowest.toNat < OperatorPrecedence.Equals.toNat ∧
    OperatorPrecedence.Equals.toNat < OperatorPrecedence.LessGreater.toNat ∧
    OperatorPrecedence.LessGreater.toNat < OperatorPrecedence.Sum.toNat ∧
    OperatorPrecedence.Sum.toNat < OperatorPrecedence.Product.toNat ∧
    OperatorPrecedence.Product.toNat < OperatorPrecedence.Prefix.toNat ∧
    OperatorPrecedence.Prefix.toNat < OperatorPrecedence.Call.toNat := by decide

theorem parse_program_loop_counts (fuel : Nat) :
    ∀ (p : Parser) (prog prog' : Program) (n : Nat),
      Parser.parse_program_loop fuel p prog = some prog' →
      Parser.parseAttempts fuel p = some n →
      prog'.statments.length + prog'.errors.length
        = prog.statments.length + prog.errors.length + n := by
  induction fuel with
  | zero =>
    intro p prog prog' n h1 _
    exact absurd h1 (by simp [Parser.parse_program_loop])
  | succ fuel ih =>
    intro p prog prog' n h1 h2
    rw [Parser.parse_program_loop] at h1
    rw [Parser.parseAttempts] at h2
    by_cases hc : p.current_token.isSome
    · rw [if_pos hc] at h1 h2
      cases hs : Parser.parse_statement fuel p with
      | none => rw [hs] at h1; exact absurd h1 (by simp)
      | some rp =>
        obtain ⟨res, p1⟩ := rp
        rw [hs] at h1 h2
        obtain ⟨m, hm, hn⟩ := Option.map_eq_some'.mp h2
        subst hn
        cases res with
        | ok stmt =>
          have := ih p1.next_token _ _ _ h1 hm
          simp only [List.length_append, List.length_cons, List.length_nil] at this
          omega
        | error err =>
          have := ih p1.next_token _ _ _ h1 hm
          simp only [List.length_append, List.length_cons, List.length_nil] at this
          omega
    · rw [if_neg hc] at h1 h2
      cases h1
      cases h2
      omega

/-- Claim C7: for a terminating run of `parse_program`'s loop started on a fresh
`Program`, each statement-parse attempt contributes exactly one entry to
exactly one of the two lists, so `statments.length + errors.length` equals
the number of parse attempts. -/
theorem statements_plus_errors_eq_attempts (fuel : Nat) (toks : List Token)
    (prog : Program) (n : Nat)
    (h1 : Parser.parse_program_loop fuel (Parser.new toks) Program.new = some prog)
    (h2 : Parser.parseAttempts fuel (Parser.new toks) = some n) :
    prog.statments.length + prog.errors.length = n := by
  have := parse_program_loop_counts fuel (Parser.new toks) Program.new prog n h1 h2
  simpa [Program.new] using this

/-- Witness for C7: a stream whose three statement attempts produce two
statements and one error, and 2 + 1 = 3. -/
theorem statements_plus_errors_eq_attempts_witness :
    ({ statments := [Statement.Expression (Expression.IntegerLiteral 5),
         Statement.Expression (Expression.IntegerLiteral 1)],
       errors := ["expected token to be ident got: Some(Int(1))"] }
      : Program).statments.length +
    ({ statments := [Statement.Expression (Expression.IntegerLiteral 5),
         Statement.Expression (Expression.IntegerLiteral 1)],
       errors := ["expected token to be ident got: Some(Int(1))"] }
      : Program).errors.length = 3 :=
  statements_plus_errors_eq_attempts 20
    [Token.Int 5, Token.Semicolon, Token.Let, Token.Int 1, Token.Semicolon]
    _ 3 rfl rfl

/-- Claim C8 counterexample: in expression position a semicolon has no prefix rule,
and the parse error recorded for the token stream `;` is
`test broken exp Semicolon` — not the claimed
`no prefix parse rule for token` message. -/
theorem no_prefix_rule_message_text :
    Parser.parse_program 20 (Parser.new [Token.Semicolon])
      = some (Except.ok { statments := [], errors := ["test broken exp Semicolon"] }) ∧
    "test broken exp Semicolon" ≠ "no prefix parse rule for token `Semicolon`" :=
  ⟨rfl, by decide⟩

/-- Claim C8 amended: for every token whose kind has no prefix parsing rule,
`prefix_parse` fails with the message `test broken exp <T>`, where `<T>` is
the token's debug rendering — the message names the offending token, but
its text is not `no prefix parse rule for token <T>`, and not every parser
error message names an expected alternative. -/
theorem no_prefix_rule_error_message (fuel : Nat) (t : Token) (p : Parser)
    (h : hasPrefixRule t = false) :
    Token.prefix_parse (fuel + 1) t p
      = some (Except.error ("test broken exp " ++ tokenDebug t), p) := by
  cases t <;> first
    | rfl
    | exact absurd h (by simp [hasPrefixRule])

/-- Witness for C8's amended theorem, at the semicolon token. -/
theorem no_prefix_rule_error_message_witness :
    hasPrefixRule Token.Semicolon = false ∧
    Token.prefix_parse 1 Token.Semicolon (Parser.new [])
      = some (Except.error ("test broken exp " ++ tokenDebug Token.Semicolon),
          Parser.new []) :=
  ⟨rfl, no_prefix_rule_error_message 0 Token.Semicolon (Parser.new []) rfl⟩

/-- Claim C9: `is_thruthy` returns true for every `Integer` regardless of its
numeric value, the wrapped boolean for `Boolean`, false for `Null`, and for
`ReturnValue` the truthiness of the wrapped value. -/
theorem is_thruthy_spec :
    (∀ n : Int, (Object.Integer n).is_thruthy = true) ∧
    (∀ b : Bool, (Object.Boolean b).is_thruthy = b) ∧
    Object.Null.is_thruthy = false ∧
    (∀ obj : Object, (Object.ReturnValue obj).is_thruthy = obj.is_thruthy) :=
  ⟨fun _ => rfl, fun _ => rfl, rfl, fun _ => rfl⟩

/-- Claim C10: on an empty token stream the constructor's two-token priming leaves
both lookahead slots empty, the top-level loop never runs, and
`parse_program` returns a `Program` with empty statement and error lists. -/
theorem parse_program_empty_stream (fuel : Nat) (h : 0 < fuel) :
    (Parser.new ([] : List Token)).current_token = none ∧
    (Parser.new ([] : List Token)).peek_token = none ∧
    Parser.parse_program fuel (Parser.new ([] : List Token))
      = some (Except.ok { statments := [], errors := [] }) := by
  refine ⟨rfl, rfl, ?_⟩
  cases fuel with
  | zero => exact absurd h (by simp)
  | succ n => rfl

/-- Witness for C10 at fuel 1. -/
theorem parse_program_empty_stream_witness :
    (Parser.new ([] : List Token)).current_token = none ∧
    (Parser.new ([] : List Token)).peek_token = none ∧
    Parser.parse_program 1 (Parser.new ([] : List Token))
      = some (Except.ok { statments := [], errors := [] }) :=
  parse_program_empty_stream 1 (by decide)
